import Mathlib

/-!
# Verification of the Virtual-Idol-Hikari memory core against its specification

Shallow embedding of the repository's memory subsystem
(`src/services/memoryManager.ts`, `src/services/memoryProcessor.ts`,
`src/unnamed/part_000` = the topic-generator module) and of the sticker
similarity cache (`src/services/stickerCache.ts`), together with theorems
settling the spec's claims.

Modelling conventions:
* The IndexedDB fact store is a list of `MemoryFact` records in insertion
  order (every read path in the source re-sorts by timestamp, so only the
  sorted views matter; `store.add` rejects an already-present key, modelled
  as a no-op on the state).
* `Date.now()`-based ids and timestamps are nondeterministic in the source
  and are passed in as explicit parameters (`id`, `ts`, or a supply
  function `Nat → String × Nat`).
* Calls to the external generation oracle are parameters: `none` models a
  failed call (the `catch` path), `some x` a successfully parsed response.
* JavaScript numbers are embedded as exact arithmetic: counts and
  timestamps as `Nat`, importances as `ℚ`, embedding coordinates and
  similarity thresholds as `ℝ`.  `Math.floor(n * 0.4)` equals `2 * n / 5`
  in `Nat` division for every list length arising here.
* JS strings are `String`/`List Char`; `String.prototype.includes` is the
  contiguous-sublist (infix) relation, `.length` the character count,
  `charCodeAt` the code point (these agree with UTF-16 for the BMP texts
  the program handles).
* The stable `Array.prototype.sort` with comparator `b.timestamp -
  a.timestamp` is modelled by a stable insertion sort, newest first.
-/

/-- A memory fact row of the `facts` object store (`src/types.ts` /
`memoryManager.ts`): `type` is the lifecycle type (`"short_term"` or
`"long_term"`). -/
structure MemoryFact where
  id : String
  fact : String
  category : String
  type : String
  importance : ℚ
  source : String
  timestamp : Nat
deriving DecidableEq, Repr

/-- The fact store: the rows of the IndexedDB `facts` table, in insertion
order. -/
structure Store where
  facts : List MemoryFact
deriving DecidableEq, Repr

/-- Stable insertion (newest first, ties keep earlier elements first) used
to model the JS stable sort by descending timestamp. -/
def insertDesc (f : MemoryFact) : List MemoryFact → List MemoryFact
  | [] => [f]
  | g :: rest =>
    if g.timestamp < f.timestamp then f :: g :: rest else g :: insertDesc f rest

/-- `facts.sort((a, b) => new Date(b.timestamp).getTime() - new
Date(a.timestamp).getTime())`: stable sort, newest first. -/
def sortByTimestampDesc (l : List MemoryFact) : List MemoryFact :=
  l.foldr insertDesc []

/-- `addMemoryFact` (`memoryManager.ts`): assigns the supplied id/timestamp
and `store.add`s the row; IndexedDB `add` rejects a duplicate key, which
leaves the store unchanged. -/
def addMemoryFact (s : Store) (f : MemoryFact) : Store :=
  if s.facts.any (fun g => g.id == f.id) then s else ⟨s.facts ++ [f]⟩

/-- `getShortTermMemories`: `index('type').getAll('short_term')`, then sort
newest first. -/
def getShortTermMemories (s : Store) : List MemoryFact :=
  sortByTimestampDesc (s.facts.filter (fun f => f.type == "short_term"))

/-- `getLongTermMemories`: `index('type').getAll('long_term')`, then sort
newest first. -/
def getLongTermMemories (s : Store) : List MemoryFact :=
  sortByTimestampDesc (s.facts.filter (fun f => f.type == "long_term"))

/-- `promoteToLongTerm` (`memoryManager.ts` 127–145): fetches the record by
key and flips `type` to `long_term` only when it currently is
`short_term`; a missing id is a silent no-op. -/
def promoteToLongTerm (s : Store) (factId : String) : Store :=
  ⟨s.facts.map (fun f =>
    if f.id == factId && f.type == "short_term" then { f with type := "long_term" } else f)⟩

/-- The partial update object of `updateMemoryFact` (`Partial<MemoryFact>`
restricted to the non-key fields; no in-repo caller updates `id`). -/
structure FactUpdates where
  ufact : Option String
  ucategory : Option String
  utype : Option String
  uimportance : Option ℚ
  usource : Option String
  utimestamp : Option Nat
deriving DecidableEq, Repr

/-- `{ ...fact, ...updates }`: fields present in the update override. -/
def applyUpdates (f : MemoryFact) (u : FactUpdates) : MemoryFact :=
  { f with
    fact := u.ufact.getD f.fact
    category := u.ucategory.getD f.category
    type := u.utype.getD f.type
    importance := u.uimportance.getD f.importance
    source := u.usource.getD f.source
    timestamp := u.utimestamp.getD f.timestamp }

/-- `updateMemoryFact` (`memoryManager.ts` 155–173): fetch by key, merge the
partial update, `put` back; missing id is a silent no-op. -/
def updateMemoryFact (s : Store) (factId : String) (u : FactUpdates) : Store :=
  ⟨s.facts.map (fun f => if f.id == factId then applyUpdates f u else f)⟩

/-- `deleteMemoryFact`: delete the record with the given key. -/
def deleteMemoryFact (s : Store) (factId : String) : Store :=
  ⟨s.facts.filter (fun f => !(f.id == factId))⟩

/-- Effect of promoting a set of ids one after another: flip
`short_term → long_term` exactly on the listed ids. -/
def promoteMany (ids : List String) (f : MemoryFact) : MemoryFact :=
  if ids.contains f.id && f.type == "short_term" then { f with type := "long_term" } else f

/-- `isDuplicateMemory` (`memoryProcessor.ts` 9–26) applied to the texts of
all current short- and long-term facts: identical text, or containment in
either direction with character-length difference at most 3. -/
def isDuplicateMemory (all : List String) (fact : String) : Bool :=
  all.any fun m =>
    if m = fact then true
    else if decide (fact.toList <:+: m.toList) || decide (m.toList <:+: fact.toList) then
      decide (((m.length : Int) - (fact.length : Int)).natAbs ≤ 3)
    else false

/-- The ids `organizeMemories` promotes, given the oracle outcome:
`some keep` is a parsed `keep_indices` list (1-based positions into the
newest-first short-term list), `none` the failure fallback that keeps the
first `Math.floor(N * 0.4)` entries of that same list.  Empty when fewer
than 5 short-term facts exist. -/
def orgSelection (s : Store) (oracle : Option (List Nat)) : List String :=
  let stm := getShortTermMemories s
  if stm.length < 5 then []
  else
    match oracle with
    | some keep => (stm.enum.filter (fun p => keep.contains (p.1 + 1))).map (fun p => p.2.id)
    | none => (stm.take (stm.length * 2 / 5)).map (fun f => f.id)

/-- `organizeMemories` (`memoryProcessor.ts` 99–154).  Returns the new store
and the reported `{ promoted, removed }` counts.  The oracle parameter is
the parsed `keep_indices` (`none` = the call failed and the first-40%
fallback of the `catch` block runs).  Nothing is ever deleted. -/
def organizeMemories (s : Store) (oracle : Option (List Nat)) : Store × Nat × Nat :=
  let stm := getShortTermMemories s
  if stm.length < 5 then (s, 0, 0)
  else
    match oracle with
    | some keep =>
      let sel := (stm.enum.filter (fun p => keep.contains (p.1 + 1))).map (fun p => p.2.id)
      (sel.foldl promoteToLongTerm s, sel.length, stm.length - sel.length)
    | none =>
      let k := stm.length * 2 / 5
      (((stm.take k).map (fun f => f.id)).foldl promoteToLongTerm s, k, stm.length - k)

/-- The long-term fact `summarizeLongTermMemories` creates for one summary
string: category `shared_event`, importance `0.8`, source `system`. -/
def mkSummaryFact (t : String) (idts : String × Nat) : MemoryFact :=
  { id := idts.1, fact := t, category := "shared_event", type := "long_term",
    importance := 4/5, source := "system", timestamp := idts.2 }

/-- The `for (const summary of summaries) await addMemoryFact(...)` loop of
`summarizeLongTermMemories`, with the fresh id/timestamp supply indexed
from `n`. -/
def addSummaries (s : Store) (summaries : List String) (fresh : Nat → String × Nat)
    (n : Nat) : Store :=
  match summaries with
  | [] => s
  | t :: rest => addSummaries (addMemoryFact s (mkSummaryFact t (fresh n))) rest fresh (n + 1)

/-- `summarizeLongTermMemories` (`src/unnamed/part_000` 61–112): no-op below
8 facts or on oracle failure; otherwise saves every summary string as a new
long-term fact and reports how many summaries were produced. -/
def summarizeLongTermMemories (s : Store) (longTermMemories : List MemoryFact)
    (oracle : Option (List String)) (fresh : Nat → String × Nat) : Store × Nat :=
  if longTermMemories.length < 8 then (s, 0)
  else
    match oracle with
    | none => (s, 0)
    | some summaries => (addSummaries s summaries fresh 0, summaries.length)

/-- `organizeAndSummarizeLongTerm` (`memoryProcessor.ts` 157–178): snapshot
the long-term list, run `organizeMemories`, and when the snapshot holds at
least 8 facts summarize it; if at least one summary was produced, delete
every snapshot fact.  Returns the store with the reported
`{ promoted, summarized }`. -/
def organizeAndSummarizeLongTerm (s : Store) (keepSel : Option (List Nat))
    (sumOracle : Option (List String)) (fresh : Nat → String × Nat) : Store × Nat × Nat :=
  let ltm := getLongTermMemories s
  let o := organizeMemories s keepSel
  if 8 ≤ ltm.length then
    let r := summarizeLongTermMemories o.1 ltm sumOracle fresh
    let s3 := if 0 < r.2 then (ltm.map (fun m => m.id)).foldl deleteMemoryFact r.1 else r.1
    (s3, o.2.1, r.2)
  else (o.1, o.2.1, 0)

/-- A chat message as consumed by `extractMemoriesFromHistory`; `hasImage`
models the truthiness of `msg.imageUrl`, empty `content` is falsy. -/
structure ChatMsg where
  role : String
  content : String
  hasImage : Bool
deriving DecidableEq, Repr

/-- The inner `for (let j = i + 1; ...)` scan: the smallest index `j ≥ k`
holding an assistant message with non-empty text and no image. -/
def findAssistantFrom (msgs : List ChatMsg) (k : Nat) : Option Nat :=
  ((List.range msgs.length).drop k).find? (fun j =>
    match msgs.get? j with
    | some m => m.role == "assistant" && m.content != "" && !m.hasImage
    | none => false)

/-- The pairing `while` loop of `extractMemoriesFromHistory` (lines
202–221).  On a successful pairing the source sets `i = j + 1` and the
loop's trailing `i++` moves on to `j + 2`.  The fuel argument equals the
message count, which bounds the number of iterations since `i` grows by at
least one per step. -/
def collectPairsAux (msgs : List ChatMsg) : Nat → Nat → List (String × String)
  | 0, _ => []
  | fuel + 1, i =>
    if h : i < msgs.length then
      let msg := msgs.get ⟨i, h⟩
      if msg.role == "user" && msg.content != "" then
        match findAssistantFrom msgs (i + 1) with
        | some j =>
          match msgs.get? j with
          | some nm => (msg.content, nm.content) :: collectPairsAux msgs fuel (j + 2)
          | none => collectPairsAux msgs fuel (i + 1)
        | none => collectPairsAux msgs fuel (i + 1)
      else collectPairsAux msgs fuel (i + 1)
    else []

/-- The conversation pairs extracted from a message history. -/
def collectPairs (msgs : List ChatMsg) : List (String × String) :=
  collectPairsAux msgs msgs.length 0

/-- One candidate memory of the oracle's `memories` array; `none` models an
absent/null field, and JS truthiness additionally treats `""` and `0` as
missing. -/
structure Candidate where
  cfact : Option String
  ccategory : Option String
  cimportance : Option ℚ
deriving DecidableEq, Repr

/-- `if (mem.fact)`: the candidate is persisted only when `fact` is truthy. -/
def candValid (c : Candidate) : Bool :=
  match c.cfact with
  | some f => f != ""
  | none => false

/-- The long-term fact built for one candidate:
`category = mem.category || 'shared_event'`,
`importance = mem.importance || 0.7`, `type: 'long_term'`,
`source: 'system'`. -/
def mkExtractedFact (c : Candidate) (idts : String × Nat) : MemoryFact :=
  { id := idts.1
    fact := c.cfact.getD ""
    category :=
      match c.ccategory with
      | some cat => if cat = "" then "shared_event" else cat
      | none => "shared_event"
    type := "long_term"
    importance :=
      match c.cimportance with
      | some v => if v = 0 then 7/10 else v
      | none => 7/10
    source := "system"
    timestamp := idts.2 }

/-- The `for (const mem of memories)` persisting loop of
`extractMemoriesFromHistory`: every truthy candidate is added (no
duplicate check, no cap), counting the additions. -/
def addCandidates (s : Store) (mems : List Candidate) (fresh : Nat → String × Nat)
    (n : Nat) : Store × Nat :=
  match mems with
  | [] => (s, n)
  | c :: rest =>
    if candValid c then
      addCandidates (addMemoryFact s (mkExtractedFact c (fresh n))) rest fresh (n + 1)
    else addCandidates s rest fresh n

/-- The facts the persisting loop appends, starting at supply index `n`. -/
def extractedFacts (mems : List Candidate) (fresh : Nat → String × Nat)
    (n : Nat) : List MemoryFact :=
  match mems with
  | [] => []
  | c :: rest =>
    if candValid c then mkExtractedFact c (fresh n) :: extractedFacts rest fresh (n + 1)
    else extractedFacts rest fresh n

/-- `extractMemoriesFromHistory` (`memoryProcessor.ts` 194–302): empty
history or an empty pairing list adds nothing; otherwise every truthy
candidate of the oracle response is written as a long-term/system fact and
the count of additions is reported (oracle failure adds nothing). -/
def extractMemoriesFromHistory (s : Store) (messages : List ChatMsg)
    (oracle : Option (List Candidate)) (fresh : Nat → String × Nat) : Store × Nat :=
  if messages.length = 0 then (s, 0)
  else if (collectPairs messages).length = 0 then (s, 0)
  else
    match oracle with
    | none => (s, 0)
    | some mems => addCandidates s mems fresh 0

/- ## Memory-lifecycle operations as a transition system (for the
lifecycle-direction invariant). -/

/-- One operation against the fact store / lifecycle manager. -/
inductive MemOp where
  | add (fact category ty : String) (importance : ℚ) (source : String) (id : String) (ts : Nat)
  | promote (id : String)
  | update (id : String) (u : FactUpdates)
  | organize (oracle : Option (List Nat))
  | consolidate (keepSel : Option (List Nat)) (sumOracle : Option (List String))
      (fresh : Nat → String × Nat)
  | delete (id : String)

/-- Apply one operation to the store. -/
def applyOp (s : Store) : MemOp → Store
  | .add fact category ty importance source id ts =>
    addMemoryFact s ⟨id, fact, category, ty, importance, source, ts⟩
  | .promote id => promoteToLongTerm s id
  | .update id u => updateMemoryFact s id u
  | .organize oracle => (organizeMemories s oracle).1
  | .consolidate keepSel sumOracle fresh =>
    (organizeAndSummarizeLongTerm s keepSel sumOracle fresh).1
  | .delete id => deleteMemoryFact s id

/-- Apply a sequence of operations. -/
def applyOps (s : Store) (ops : List MemOp) : Store := ops.foldl applyOp s

/-- The operation's partial update, if any, does not write the lifecycle
`type` field. -/
def MemOp.noTypeUpdate : MemOp → Prop
  | .update _ u => u.utype = none
  | _ => True

/-- The operation, if an `add`, does not reuse the tracked id. -/
def MemOp.addsFreshFor (i : String) : MemOp → Prop
  | .add _ _ _ _ _ id _ => id ≠ i
  | _ => True

/- ## Sticker similarity cache (`src/services/stickerCache.ts`). -/

/-- 32-bit signed-integer wrap of `hash & hash`. -/
def wrap32 (x : Int) : Int := (x + 2 ^ 31) % 2 ^ 32 - 2 ^ 31

/-- One step of `hashString`: `hash = ((hash << 5) - hash) + charCode`
followed by the `hash & hash` 32-bit coercion (`<< 5` itself wraps). -/
def hashStep (h : Int) (c : Char) : Int := wrap32 (wrap32 (32 * h) - h + c.toNat)

/-- `hashString` (`stickerCache.ts` 60–68), ending in `Math.abs`. -/
def hashString (s : List Char) : Nat := ((s.foldl hashStep 0).natAbs)

/-- The sliding 2-character windows of a text. -/
def windows2 : List Char → List (List Char)
  | a :: b :: rest => [a, b] :: windows2 (b :: rest)
  | _ => []

/-- Coordinate `j` of the un-normalized feature vector: accumulating each
distinct bigram's count into `vector[hashString(gram) % 256]` totals, per
bucket, the number of bigram occurrences hashing there. -/
def countVec (text : List Char) (j : Fin 256) : ℕ :=
  ((windows2 (text.map Char.toLower)).filter (fun g => hashString g % 256 = j.val)).length

/-- The squared magnitude `vector.reduce((sum, val) => sum + val * val, 0)`
of the un-normalized vector, as a natural number. -/
def magSq (text : List Char) : ℕ := ∑ j : Fin 256, countVec text j * countVec text j

/-- The dot product of two un-normalized feature vectors. -/
def dotNat (t1 t2 : List Char) : ℕ := ∑ j : Fin 256, countVec t1 j * countVec t2 j

/-- `computeTextEmbedding` (`stickerCache.ts` 36–58): bigram counts folded
into 256 buckets, then L2-normalized; a zero-magnitude vector is returned
as is. -/
noncomputable def computeTextEmbedding (text : List Char) : Fin 256 → ℝ :=
  let v : Fin 256 → ℝ := fun j => (countVec text j : ℝ)
  let magnitude := Real.sqrt (∑ j : Fin 256, v j * v j)
  if magnitude > 0 then fun j => v j / magnitude else v

/-- `cosineSimilarity` (`stickerCache.ts` 71–89) on 256-dimensional vectors
(every embedding the program stores or queries has dimension 256, so the
length-mismatch guard never fires): 0 when either magnitude is zero. -/
noncomputable def cosineSimilarity (v1 v2 : Fin 256 → ℝ) : ℝ :=
  let dotProduct := ∑ i : Fin 256, v1 i * v2 i
  let mag1 := Real.sqrt (∑ i : Fin 256, v1 i * v1 i)
  let mag2 := Real.sqrt (∑ i : Fin 256, v2 i * v2 i)
  if mag1 = 0 ∨ mag2 = 0 then 0 else dotProduct / (mag1 * mag2)

/-- A cached sticker row (`src/types.ts` `StickerCache`). -/
structure Sticker where
  id : String
  prompt : List Char
  type : String
  detail : List Char
  imageData : String
  embedding : Fin 256 → ℝ
  createdAt : Nat
  usageCount : Nat

/-- `saveSticker` (`stickerCache.ts` 92–120): embeds
`prompt + ' ' + detail`, sets `usageCount = 1`, persists, and resolves the
new row. -/
noncomputable def saveSticker (store : List Sticker) (prompt : List Char) (ty : String)
    (detail : List Char) (imageData : String) (id : String) (ts : Nat) :
    List Sticker × Sticker :=
  let embedding := computeTextEmbedding (prompt ++ [' '] ++ detail)
  let sticker : Sticker :=
    ⟨id, prompt, ty, detail, imageData, embedding, ts, 1⟩
  (store ++ [sticker], sticker)

/-- The best-match scan of `findSimilarSticker`: running
`(bestMatch, bestSimilarity)` accumulator, updated when
`similarity > bestSimilarity && similarity >= threshold`. -/
noncomputable def simFold (q : Fin 256 → ℝ) (threshold : ℝ)
    (acc : Option Sticker × ℝ) (l : List Sticker) : Option Sticker × ℝ :=
  l.foldl (fun acc st =>
    let similarity := cosineSimilarity q st.embedding
    if similarity > acc.2 ∧ similarity ≥ threshold then (some st, similarity) else acc) acc

/-- `findSimilarSticker` (`stickerCache.ts` 123–162): embed the descriptor
alone, scan only rows of the requested `type` (the `type` index), and
return the best qualifying match, if any. -/
noncomputable def findSimilarSticker (store : List Sticker) (ty : String)
    (detail : List Char) (threshold : ℝ) : Option Sticker :=
  let queryEmbedding := computeTextEmbedding detail
  let stickers := store.filter (fun st => st.type == ty)
  (simFold queryEmbedding threshold (none, 0) stickers).1

/-- `updateUsageCount`: fetch by id, increment `usageCount`, `put` back. -/
def updateUsageCount (store : List Sticker) (id : String) : List Sticker :=
  store.map (fun st => if st.id == id then { st with usageCount := st.usageCount + 1 } else st)

/-- `findSimilarSticker` together with the usage-count increment it fires
on a hit (the fire-and-forget `updateUsageCount(bestMatch.id)`). -/
noncomputable def findSimilarAndTouch (store : List Sticker) (ty : String)
    (detail : List Char) (threshold : ℝ) : Option Sticker × List Sticker :=
  match findSimilarSticker store ty detail threshold with
  | none => (none, store)
  | some m => (some m, updateUsageCount store m.id)


/- ## Concrete instances used to instantiate the theorems -/

/-- A short-term fact used in concrete stores. -/
def demoShortFact (idv : String) (ts : Nat) : MemoryFact :=
  ⟨idv, "fact " ++ idv, "userinfo", "short_term", 1, "conversation", ts⟩

/-- Five short-term facts inserted in order `a, b, c, d, e` with strictly
increasing timestamps. -/
def demoStore5 : Store :=
  ⟨[demoShortFact "a" 1, demoShortFact "b" 2, demoShortFact "c" 3,
    demoShortFact "d" 4, demoShortFact "e" 5]⟩

/-- A single long-term fact. -/
def demoLongFact : MemoryFact :=
  ⟨"lt1", "a long-standing fact", "shared_event", "long_term", 1, "system", 1⟩

/-- A store holding only `demoLongFact`. -/
def demoLongStore : Store := ⟨[demoLongFact]⟩

/-- A concrete operation sequence: a text-only edit, a (no-op) promotion, an
insertion under a fresh id, and a deletion. -/
def demoOps : List MemOp :=
  [.update "lt1" ⟨some "edited text", none, none, none, none, none⟩,
   .promote "lt1",
   .add "new short fact" "userinfo" "short_term" 1 "conversation" "f2" 5,
   .delete "f2"]

/-- A minimal two-message history that pairs into one conversation. -/
def demoMsgs : List ChatMsg := [⟨"user", "hi", false⟩, ⟨"assistant", "hello", false⟩]

/-- Six truthy candidates, one more than the prompt requests. -/
def demoCands : List Candidate :=
  ["f1", "f2", "f3", "f4", "f5", "f6"].map (fun t => ⟨some t, none, none⟩)

/-- A single truthy candidate. -/
def demoCand1 : List Candidate := [⟨some "likes tea", none, none⟩]

/-- A concrete cached sticker. -/
noncomputable def demoSticker : Sticker :=
  ⟨"s0", "hi".toList, "hikari_emotion", "smile".toList, "img",
    computeTextEmbedding ("hi smile".toList), 0, 1⟩

/- ## Helper lemmas -/

theorem mem_insertDesc {g f : MemoryFact} : ∀ {l : List MemoryFact},
    g ∈ insertDesc f l ↔ g = f ∨ g ∈ l := by
  intro l
  induction l with
  | nil => simp [insertDesc]
  | cons a rest ih =>
    unfold insertDesc
    by_cases h : a.timestamp < f.timestamp
    · simp [h]
    · simp only [h, if_false, List.mem_cons, ih]
      tauto

theorem mem_sortByTimestampDesc {g : MemoryFact} : ∀ {l : List MemoryFact},
    g ∈ sortByTimestampDesc l ↔ g ∈ l := by
  intro l
  induction l with
  | nil => simp [sortByTimestampDesc]
  | cons a rest ih =>
    show g ∈ insertDesc a (sortByTimestampDesc rest) ↔ _
    rw [mem_insertDesc]
    simp [ih]

theorem mem_getLongTermMemories {f : MemoryFact} {s : Store} :
    f ∈ getLongTermMemories s ↔ f ∈ s.facts ∧ f.type = "long_term" := by
  unfold getLongTermMemories
  rw [mem_sortByTimestampDesc, List.mem_filter]
  simp

theorem mem_getShortTermMemories {f : MemoryFact} {s : Store} :
    f ∈ getShortTermMemories s ↔ f ∈ s.facts ∧ f.type = "short_term" := by
  unfold getShortTermMemories
  rw [mem_sortByTimestampDesc, List.mem_filter]
  simp

theorem promoteMany_id (ids : List String) (f : MemoryFact) :
    (promoteMany ids f).id = f.id := by
  unfold promoteMany
  split <;> rfl

theorem promoteMany_nil (f : MemoryFact) : promoteMany [] f = f := by
  simp [promoteMany]

theorem promoteMany_of_long (ids : List String) (f : MemoryFact)
    (h : f.type ≠ "short_term") : promoteMany ids f = f := by
  unfold promoteMany
  rw [if_neg]
  simp [h]

theorem promoteMany_type (ids : List String) (f : MemoryFact) :
    ((promoteMany ids f).type = f.type ∧ (promoteMany ids f).id = f.id ∧
      (promoteMany ids f).fact = f.fact ∧ (promoteMany ids f).category = f.category ∧
      (promoteMany ids f).importance = f.importance ∧ (promoteMany ids f).source = f.source ∧
      (promoteMany ids f).timestamp = f.timestamp) ∨
    (f.type = "short_term" ∧ promoteMany ids f = { f with type := "long_term" }) := by
  unfold promoteMany
  split
  · next h =>
    right
    exact ⟨by simpa using (Bool.and_eq_true _ _ |>.mp h).2, rfl⟩
  · left
    exact ⟨rfl, rfl, rfl, rfl, rfl, rfl, rfl⟩

theorem promoteMany_cons (idv : String) (rest : List String) (f : MemoryFact) :
    promoteMany rest
      (if f.id == idv && f.type == "short_term" then { f with type := "long_term" } else f) =
    promoteMany (idv :: rest) f := by
  by_cases h1 : f.id = idv
  · by_cases h2 : f.type = "short_term"
    · simp [promoteMany, h1, h2]
    · simp [promoteMany, h1, h2]
  · simp only [promoteMany, List.contains_cons]
    by_cases h2 : f.type = "short_term" <;> simp [h1, h2]

theorem map_promoteMany_nil : ∀ l : List MemoryFact, l.map (promoteMany []) = l := by
  intro l
  induction l with
  | nil => rfl
  | cons a t ih => simp [promoteMany_nil, ih]

theorem promote_foldl (ids : List String) : ∀ s : Store,
    (ids.foldl promoteToLongTerm s).facts = s.facts.map (promoteMany ids) := by
  induction ids with
  | nil =>
    intro s
    simp [map_promoteMany_nil]
  | cons idv rest ih =>
    intro s
    rw [List.foldl_cons, ih]
    show (promoteToLongTerm s idv).facts.map _ = _
    unfold promoteToLongTerm
    rw [List.map_map]
    exact List.map_congr_left (fun f _ => promoteMany_cons idv rest f)

theorem organizeMemories_facts (s : Store) (oracle : Option (List Nat)) :
    (organizeMemories s oracle).1.facts = s.facts.map (promoteMany (orgSelection s oracle)) := by
  unfold organizeMemories orgSelection
  by_cases h : (getShortTermMemories s).length < 5
  · simp only [h, if_true]
    rw [map_promoteMany_nil]
  · cases oracle with
    | some keep => simp only [h, if_false]; exact promote_foldl _ s
    | none => simp only [h, if_false]; exact promote_foldl _ s

theorem deleteFold_facts (ids : List String) : ∀ s : Store,
    (ids.foldl deleteMemoryFact s).facts = s.facts.filter (fun f => !(ids.contains f.id)) := by
  induction ids with
  | nil => intro s; simp
  | cons idv rest ih =>
    intro s
    rw [List.foldl_cons, ih]
    show (deleteMemoryFact s idv).facts.filter _ = _
    unfold deleteMemoryFact
    rw [List.filter_filter]
    apply List.filter_congr
    intro f _
    by_cases h : f.id = idv <;> simp [h, List.contains_cons]

theorem addMemoryFact_fresh (s : Store) (f : MemoryFact)
    (h : f.id ∉ s.facts.map (fun g => g.id)) :
    (addMemoryFact s f).facts = s.facts ++ [f] := by
  have hc : (s.facts.any fun g => g.id == f.id) = false := by
    rw [List.any_eq_false]
    intro g hg he
    exact h (List.mem_map.mpr ⟨g, hg, beq_iff_eq.mp he⟩)
  unfold addMemoryFact
  rw [hc]
  rfl

theorem addSummaries_facts (fresh : Nat → String × Nat)
    (hinj : ∀ m n, (fresh m).1 = (fresh n).1 → m = n) :
    ∀ (l : List String) (s : Store) (n : Nat),
      (∀ m, n ≤ m → (fresh m).1 ∉ s.facts.map (fun f => f.id)) →
      (addSummaries s l fresh n).facts
        = s.facts ++ (List.enumFrom n l).map (fun p => mkSummaryFact p.2 (fresh p.1)) := by
  intro l
  induction l with
  | nil =>
    intro s n _
    simp [addSummaries]
  | cons t rest ih =>
    intro s n hfr
    have hadd : (addMemoryFact s (mkSummaryFact t (fresh n))).facts
        = s.facts ++ [mkSummaryFact t (fresh n)] :=
      addMemoryFact_fresh _ _ (hfr n le_rfl)
    have hfr2 : ∀ m, n + 1 ≤ m →
        (fresh m).1 ∉ (addMemoryFact s (mkSummaryFact t (fresh n))).facts.map (fun f => f.id) := by
      intro m hm
      rw [hadd, List.map_append, List.mem_append]
      rintro (hin | hin)
      · exact hfr m (Nat.le_of_succ_le hm) hin
      · simp only [mkSummaryFact, List.map_cons, List.map_nil, List.mem_singleton] at hin
        have := hinj m n hin
        omega
    show (addSummaries (addMemoryFact s (mkSummaryFact t (fresh n))) rest fresh (n + 1)).facts = _
    rw [ih _ (n + 1) hfr2, hadd]
    simp [List.enumFrom]

theorem addSummaries_mem (fresh : Nat → String × Nat) :
    ∀ (l : List String) (s : Store) (n : Nat) (f : MemoryFact),
      f ∈ (addSummaries s l fresh n).facts → f ∈ s.facts ∨ f.type = "long_term" := by
  intro l
  induction l with
  | nil =>
    intro s n f hf
    exact Or.inl hf
  | cons t rest ih =>
    intro s n f hf
    rcases ih _ _ _ hf with h | h
    · unfold addMemoryFact at h
      split at h
      · exact Or.inl h
      · rcases List.mem_append.mp h with h2 | h2
        · exact Or.inl h2
        · right
          rw [List.mem_singleton.mp h2]
          rfl
    · exact Or.inr h

theorem extractedFacts_fields (fresh : Nat → String × Nat) :
    ∀ (mems : List Candidate) (n : Nat) (f : MemoryFact),
      f ∈ extractedFacts mems fresh n → f.type = "long_term" ∧ f.source = "system" := by
  intro mems
  induction mems with
  | nil =>
    intro n f hf
    simp [extractedFacts] at hf
  | cons c rest ih =>
    intro n f hf
    unfold extractedFacts at hf
    split at hf
    · rcases List.mem_cons.mp hf with h | h
      · rw [h]
        exact ⟨rfl, rfl⟩
      · exact ih _ _ h
    · exact ih _ _ hf

theorem addCandidates_props (fresh : Nat → String × Nat)
    (hinj : ∀ m n, (fresh m).1 = (fresh n).1 → m = n) :
    ∀ (mems : List Candidate) (s : Store) (n : Nat),
      (∀ m, n ≤ m → (fresh m).1 ∉ s.facts.map (fun f => f.id)) →
      (addCandidates s mems fresh n).1.facts = s.facts ++ extractedFacts mems fresh n ∧
      (addCandidates s mems fresh n).2 = n + (mems.filter candValid).length := by
  intro mems
  induction mems with
  | nil =>
    intro s n _
    simp [addCandidates, extractedFacts]
  | cons c rest ih =>
    intro s n hfr
    by_cases hv : candValid c
    · have hadd : (addMemoryFact s (mkExtractedFact c (fresh n))).facts
          = s.facts ++ [mkExtractedFact c (fresh n)] :=
        addMemoryFact_fresh _ _ (hfr n le_rfl)
      have hfr2 : ∀ m, n + 1 ≤ m →
          (fresh m).1 ∉ (addMemoryFact s (mkExtractedFact c (fresh n))).facts.map (fun f => f.id) := by
        intro m hm
        rw [hadd, List.map_append, List.mem_append]
        rintro (hin | hin)
        · exact hfr m (Nat.le_of_succ_le hm) hin
        · simp only [mkExtractedFact, List.map_cons, List.map_nil, List.mem_singleton] at hin
          have := hinj m n hin
          omega
      have := ih (addMemoryFact s (mkExtractedFact c (fresh n))) (n + 1) hfr2
      unfold addCandidates extractedFacts
      rw [if_pos hv, if_pos hv]
      refine ⟨?_, ?_⟩
      · rw [this.1, hadd]
        simp
      · rw [this.2]
        simp [hv]
        omega
    · have := ih s n hfr
      unfold addCandidates extractedFacts
      rw [if_neg hv, if_neg hv]
      refine ⟨this.1, ?_⟩
      rw [this.2]
      simp [hv]

/-- A supply of pairwise-distinct fresh ids used to instantiate the
nondeterministic `Date.now()`-based id generation in witnesses. -/
def freshSupply : Nat → String × Nat := fun n => (String.mk (List.replicate n 'x'), n)

theorem freshSupply_inj : ∀ m n, (freshSupply m).1 = (freshSupply n).1 → m = n := by
  intro m n h
  have h2 : List.replicate m 'x' = List.replicate n 'x' := congrArg String.data h
  have h3 := congrArg List.length h2
  simpa using h3

theorem freshSupply_notin (n : Nat) (ids : List String)
    (h : ∀ id ∈ ids, 'x' ∉ id.data ∧ id.data ≠ []) : (freshSupply n).1 ∉ ids := by
  intro hmem
  obtain ⟨hx, hne⟩ := h _ hmem
  cases n with
  | zero => exact hne rfl
  | succ k =>
    apply hx
    show 'x' ∈ (String.mk (List.replicate (k + 1) 'x')).data
    simp [List.mem_replicate]

theorem mapped_promote_preserves (sel : List String) (s : Store) (i : String)
    (hlong : ∀ f ∈ s.facts, f.id = i → f.type = "long_term") :
    ∀ f ∈ s.facts.map (promoteMany sel), f.id = i → f.type = "long_term" := by
  intro f hf hid
  rcases List.mem_map.mp hf with ⟨g, hg, hfg⟩
  rcases promoteMany_type sel g with ⟨ht, hid2, _⟩ | ⟨_, heq⟩
  · rw [← hfg] at hid ⊢
    rw [ht]
    exact hlong g hg (by rw [← hid2]; exact hid)
  · rw [← hfg, heq]

theorem deleteFold_mem (ids : List String) (s : Store) (f : MemoryFact)
    (hf : f ∈ (ids.foldl deleteMemoryFact s).facts) : f ∈ s.facts := by
  rw [deleteFold_facts] at hf
  exact (List.mem_filter.mp hf).1

theorem summarize_mem (s : Store) (keepSel : Option (List Nat))
    (sumOracle : Option (List String)) (fresh : Nat → String × Nat) {g : MemoryFact}
    (hg : g ∈ (summarizeLongTermMemories (organizeMemories s keepSel).1
      (getLongTermMemories s) sumOracle fresh).1.facts) :
    g ∈ s.facts.map (promoteMany (orgSelection s keepSel)) ∨ g.type = "long_term" := by
  have horg := organizeMemories_facts s keepSel
  simp only [summarizeLongTermMemories] at hg
  split at hg
  · rw [horg] at hg
    exact Or.inl hg
  · split at hg
    · rw [horg] at hg
      exact Or.inl hg
    · rcases addSummaries_mem fresh _ _ _ _ hg with h | h
      · rw [horg] at h
        exact Or.inl h
      · exact Or.inr h

theorem consolidate_mem (s : Store) (keepSel : Option (List Nat))
    (sumOracle : Option (List String)) (fresh : Nat → String × Nat) :
    ∀ f ∈ (organizeAndSummarizeLongTerm s keepSel sumOracle fresh).1.facts,
      f ∈ s.facts.map (promoteMany (orgSelection s keepSel)) ∨ f.type = "long_term" := by
  intro f hf
  have horg := organizeMemories_facts s keepSel
  simp only [organizeAndSummarizeLongTerm] at hf
  split at hf
  · split at hf
    · have hf2 := deleteFold_mem _ _ _ hf
      rcases summarize_mem s keepSel sumOracle fresh hf2 with h | h
      · exact Or.inl h
      · exact Or.inr h
    · rcases summarize_mem s keepSel sumOracle fresh hf with h | h
      · exact Or.inl h
      · exact Or.inr h
  · rw [horg] at hf
    exact Or.inl hf

theorem applyOp_preserves_long (s : Store) (op : MemOp) (i : String)
    (h1 : op.noTypeUpdate) (h2 : op.addsFreshFor i)
    (hlong : ∀ f ∈ s.facts, f.id = i → f.type = "long_term") :
    ∀ f ∈ (applyOp s op).facts, f.id = i → f.type = "long_term" := by
  cases op with
  | add fact category ty importance source idv ts =>
    intro f hf hid
    simp only [applyOp] at hf
    unfold addMemoryFact at hf
    split at hf
    · exact hlong f hf hid
    · rcases List.mem_append.mp hf with h | h
      · exact hlong f h hid
      · rw [List.mem_singleton.mp h] at hid
        exact absurd hid h2
  | promote pid =>
    intro f hf hid
    simp only [applyOp] at hf
    unfold promoteToLongTerm at hf
    rcases List.mem_map.mp hf with ⟨g, hg, hfg⟩
    by_cases hc : (g.id == pid && g.type == "short_term") = true
    · rw [if_pos hc] at hfg
      rw [← hfg]
    · rw [if_neg hc] at hfg
      rw [← hfg] at hid ⊢
      exact hlong g hg hid
  | update pid u =>
    intro f hf hid
    simp only [applyOp] at hf
    unfold updateMemoryFact at hf
    rcases List.mem_map.mp hf with ⟨g, hg, hfg⟩
    have hu : u.utype = none := h1
    by_cases hc : (g.id == pid) = true
    · rw [if_pos hc] at hfg
      rw [← hfg] at hid ⊢
      show (applyUpdates g u).type = "long_term"
      unfold applyUpdates
      rw [hu]
      exact hlong g hg hid
    · rw [if_neg hc] at hfg
      rw [← hfg] at hid ⊢
      exact hlong g hg hid
  | organize oracle =>
    intro f hf hid
    have := organizeMemories_facts s oracle
    simp only [applyOp] at hf
    rw [this] at hf
    exact mapped_promote_preserves _ _ _ hlong f hf hid
  | consolidate keepSel sumOracle fresh =>
    intro f hf hid
    simp only [applyOp] at hf
    rcases consolidate_mem s keepSel sumOracle fresh f hf with h | h
    · exact mapped_promote_preserves _ _ _ hlong f h hid
    · exact h
  | delete pid =>
    intro f hf hid
    simp only [applyOp] at hf
    unfold deleteMemoryFact at hf
    exact hlong f (List.mem_filter.mp hf).1 hid

theorem applyOps_preserves_long (ops : List MemOp) : ∀ (s : Store) (i : String),
    (∀ op ∈ ops, op.noTypeUpdate) → (∀ op ∈ ops, op.addsFreshFor i) →
    (∀ f ∈ s.facts, f.id = i → f.type = "long_term") →
    ∀ f ∈ (applyOps s ops).facts, f.id = i → f.type = "long_term" := by
  induction ops with
  | nil =>
    intro s i _ _ hlong
    exact hlong
  | cons op rest ih =>
    intro s i hu ha hlong
    show ∀ f ∈ (applyOps (applyOp s op) rest).facts, f.id = i → f.type = "long_term"
    exact ih (applyOp s op) i (fun o ho => hu o (List.mem_cons_of_mem _ ho))
      (fun o ho => ha o (List.mem_cons_of_mem _ ho))
      (applyOp_preserves_long s op i (hu op (List.mem_cons_self _ _))
        (ha op (List.mem_cons_self _ _)) hlong)

theorem sum_countVec_sq_cast (t : List Char) :
    (∑ j : Fin 256, (countVec t j : ℝ) * (countVec t j : ℝ)) = ((magSq t : ℕ) : ℝ) := by
  unfold magSq
  push_cast
  rfl

theorem sum_countVec_mul_cast (t1 t2 : List Char) :
    (∑ j : Fin 256, (countVec t1 j : ℝ) * (countVec t2 j : ℝ)) = ((dotNat t1 t2 : ℕ) : ℝ) := by
  unfold dotNat
  push_cast
  rfl

theorem computeTextEmbedding_of_ne (t : List Char) (h : magSq t ≠ 0) :
    computeTextEmbedding t = fun j => (countVec t j : ℝ) / Real.sqrt ((magSq t : ℕ) : ℝ) := by
  have hpos : (0 : ℝ) < Real.sqrt ((magSq t : ℕ) : ℝ) :=
    Real.sqrt_pos.mpr (by exact_mod_cast Nat.pos_of_ne_zero h)
  simp only [computeTextEmbedding]
  rw [sum_countVec_sq_cast, if_pos hpos]

theorem countVec_eq_zero (t : List Char) (h : magSq t = 0) : ∀ j, countVec t j = 0 := by
  intro j
  unfold magSq at h
  rw [Finset.sum_eq_zero_iff] at h
  exact mul_self_eq_zero.mp (h j (Finset.mem_univ j))

theorem computeTextEmbedding_of_zero (t : List Char) (h : magSq t = 0) :
    computeTextEmbedding t = fun _ => 0 := by
  have hc := countVec_eq_zero t h
  simp only [computeTextEmbedding]
  rw [sum_countVec_sq_cast, h]
  rw [if_neg (by simp)]
  funext j
  rw [hc j]
  norm_num

theorem sum_emb_sq (t : List Char) (h : magSq t ≠ 0) :
    (∑ j : Fin 256, computeTextEmbedding t j * computeTextEmbedding t j) = 1 := by
  rw [computeTextEmbedding_of_ne t h]
  have hM : (0 : ℝ) < ((magSq t : ℕ) : ℝ) := by exact_mod_cast Nat.pos_of_ne_zero h
  have hs : Real.sqrt ((magSq t : ℕ) : ℝ) * Real.sqrt ((magSq t : ℕ) : ℝ)
      = ((magSq t : ℕ) : ℝ) := Real.mul_self_sqrt hM.le
  simp only [div_mul_div_comm]
  rw [← Finset.sum_div, sum_countVec_sq_cast, hs, div_self hM.ne']

theorem cosineSimilarity_emb (t1 t2 : List Char) (h1 : magSq t1 ≠ 0) (h2 : magSq t2 ≠ 0) :
    cosineSimilarity (computeTextEmbedding t1) (computeTextEmbedding t2)
      = ((dotNat t1 t2 : ℕ) : ℝ)
          / (Real.sqrt ((magSq t1 : ℕ) : ℝ) * Real.sqrt ((magSq t2 : ℕ) : ℝ)) := by
  simp only [cosineSimilarity]
  rw [sum_emb_sq t1 h1, sum_emb_sq t2 h2, Real.sqrt_one]
  rw [if_neg (by norm_num)]
  rw [computeTextEmbedding_of_ne t1 h1, computeTextEmbedding_of_ne t2 h2]
  simp only [div_mul_div_comm]
  rw [← Finset.sum_div, sum_countVec_mul_cast, mul_one, div_one]

theorem cosineSimilarity_zero_left (v1 v2 : Fin 256 → ℝ) (h : ∀ i, v1 i = 0) :
    cosineSimilarity v1 v2 = 0 := by
  simp only [cosineSimilarity]
  rw [if_pos]
  left
  have : (∑ i : Fin 256, v1 i * v1 i) = 0 := by
    apply Finset.sum_eq_zero
    intro i _
    rw [h i]
    ring
  rw [this, Real.sqrt_zero]

theorem windows2_short (l : List Char) (h : l.length < 2) : windows2 l = [] := by
  cases l with
  | nil => rfl
  | cons a t =>
    cases t with
    | nil => rfl
    | cons b t2 => simp at h; omega

theorem countVec_of_short (t : List Char) (h : t.length < 2) : ∀ j, countVec t j = 0 := by
  intro j
  unfold countVec
  rw [windows2_short]
  · rfl
  · rw [List.length_map]
    exact h

theorem magSq_of_short (t : List Char) (h : t.length < 2) : magSq t = 0 := by
  unfold magSq
  apply Finset.sum_eq_zero
  intro j _
  rw [countVec_of_short t h j]
  rfl

theorem simFold_some (q : Fin 256 → ℝ) (th : ℝ) :
    ∀ (l : List Sticker) (acc : Option Sticker × ℝ) (m : Sticker),
      (simFold q th acc l).1 = some m →
      acc.1 = some m ∨ (m ∈ l ∧ th ≤ cosineSimilarity q m.embedding) := by
  intro l
  induction l with
  | nil =>
    intro acc m h
    exact Or.inl h
  | cons st rest ih =>
    intro acc m h
    rw [show simFold q th acc (st :: rest)
        = simFold q th
            (if cosineSimilarity q st.embedding > acc.2 ∧ cosineSimilarity q st.embedding ≥ th
              then (some st, cosineSimilarity q st.embedding) else acc) rest from rfl] at h
    rcases ih _ m h with h2 | ⟨hm, hc⟩
    · by_cases hcond : cosineSimilarity q st.embedding > acc.2 ∧
        cosineSimilarity q st.embedding ≥ th
      · rw [if_pos hcond] at h2
        right
        refine ⟨?_, ?_⟩
        · rw [← Option.some_inj.mp h2]
          exact List.mem_cons_self _ _
        · rw [← Option.some_inj.mp h2]
          exact hcond.2
      · rw [if_neg hcond] at h2
        exact Or.inl h2
    · exact Or.inr ⟨List.mem_cons_of_mem _ hm, hc⟩

theorem simFold_skip (q : Fin 256 → ℝ) (th : ℝ) :
    ∀ (l : List Sticker) (acc : Option Sticker × ℝ),
      (∀ st ∈ l, ¬ th ≤ cosineSimilarity q st.embedding) →
      simFold q th acc l = acc := by
  intro l
  induction l with
  | nil =>
    intro acc _
    rfl
  | cons st rest ih =>
    intro acc hl
    rw [show simFold q th acc (st :: rest)
        = simFold q th
            (if cosineSimilarity q st.embedding > acc.2 ∧ cosineSimilarity q st.embedding ≥ th
              then (some st, cosineSimilarity q st.embedding) else acc) rest from rfl]
    rw [if_neg]
    · exact ih acc (fun g hg => hl g (List.mem_cons_of_mem _ hg))
    · rintro ⟨_, hge⟩
      exact hl st (List.mem_cons_self _ _) hge

theorem simFold_zero (q : Fin 256 → ℝ) (th : ℝ) :
    ∀ (l : List Sticker),
      (∀ st ∈ l, cosineSimilarity q st.embedding = 0) →
      simFold q th (none, 0) l = (none, 0) := by
  intro l
  induction l with
  | nil =>
    intro _
    rfl
  | cons st rest ih =>
    intro hl
    rw [show simFold q th ((none : Option Sticker), (0 : ℝ)) (st :: rest)
        = simFold q th
            (if cosineSimilarity q st.embedding > (((none : Option Sticker), (0 : ℝ)) : Option Sticker × ℝ).2 ∧
                cosineSimilarity q st.embedding ≥ th
              then (some st, cosineSimilarity q st.embedding)
              else ((none : Option Sticker), (0 : ℝ))) rest from rfl]
    rw [if_neg]
    · exact ih (fun g hg => hl g (List.mem_cons_of_mem _ hg))
    · rintro ⟨hgt, _⟩
      rw [hl st (List.mem_cons_self _ _)] at hgt
      exact lt_irrefl _ hgt

theorem oasl_small (s : Store) (keepSel : Option (List Nat)) (sumOracle : Option (List String))
    (fresh : Nat → String × Nat) (h : ¬ 8 ≤ (getLongTermMemories s).length) :
    organizeAndSummarizeLongTerm s keepSel sumOracle fresh
      = ((organizeMemories s keepSel).1, (organizeMemories s keepSel).2.1, 0) := by
  simp only [organizeAndSummarizeLongTerm]
  rw [if_neg h]

theorem summarize_none (s : Store) (ltm : List MemoryFact) (fresh : Nat → String × Nat)
    (h : 8 ≤ ltm.length) :
    summarizeLongTermMemories s ltm none fresh = (s, 0) := by
  unfold summarizeLongTermMemories
  rw [if_neg (not_lt.mpr h)]

theorem summarize_some (s : Store) (ltm : List MemoryFact) (l : List String)
    (fresh : Nat → String × Nat) (h : 8 ≤ ltm.length) :
    summarizeLongTermMemories s ltm (some l) fresh = (addSummaries s l fresh 0, l.length) := by
  unfold summarizeLongTermMemories
  rw [if_neg (not_lt.mpr h)]

theorem oasl_none (s : Store) (keepSel : Option (List Nat)) (fresh : Nat → String × Nat)
    (h : 8 ≤ (getLongTermMemories s).length) :
    organizeAndSummarizeLongTerm s keepSel none fresh
      = ((organizeMemories s keepSel).1, (organizeMemories s keepSel).2.1, 0) := by
  simp only [organizeAndSummarizeLongTerm]
  rw [if_pos h, summarize_none _ _ _ h]
  norm_num

theorem oasl_empty (s : Store) (keepSel : Option (List Nat)) (fresh : Nat → String × Nat)
    (h : 8 ≤ (getLongTermMemories s).length) :
    organizeAndSummarizeLongTerm s keepSel (some []) fresh
      = ((organizeMemories s keepSel).1, (organizeMemories s keepSel).2.1, 0) := by
  simp only [organizeAndSummarizeLongTerm]
  rw [if_pos h, summarize_some _ _ _ _ h]
  norm_num
  rfl

theorem oasl_main (s : Store) (keepSel : Option (List Nat)) (l : List String)
    (fresh : Nat → String × Nat) (h8 : 8 ≤ (getLongTermMemories s).length) (hl : l ≠ []) :
    organizeAndSummarizeLongTerm s keepSel (some l) fresh
      = (((getLongTermMemories s).map (fun m => m.id)).foldl deleteMemoryFact
           (addSummaries (organizeMemories s keepSel).1 l fresh 0),
         (organizeMemories s keepSel).2.1, l.length) := by
  simp only [organizeAndSummarizeLongTerm]
  rw [if_pos h8, summarize_some _ _ _ _ h8]
  rw [if_pos (List.length_pos.mpr hl)]

theorem org_ids (s : Store) (keepSel : Option (List Nat)) :
    (organizeMemories s keepSel).1.facts.map (fun f => f.id)
      = s.facts.map (fun f => f.id) := by
  rw [organizeMemories_facts, List.map_map]
  exact List.map_congr_left (fun f _ => promoteMany_id _ f)

/-- C1: `organizeAndSummarizeLongTerm` is all-or-nothing on the pre-existing
long-term facts.  If the summarization oracle fails, produces zero
summaries, or is not consulted (fewer than 8 long-term facts), every
pre-existing long-term fact is still in the store afterwards.  If it
produces at least one summary, the resulting store consists exactly of the
non-long-term survivors (with the promotions `organizeMemories` performed)
plus one new `shared_event`/importance-0.8/`system` long-term fact per
summary, and no pre-existing long-term fact (by id) remains — never a
partial replacement. -/
theorem consolidation_all_or_nothing (s : Store) (keepSel : Option (List Nat))
    (sumOracle : Option (List String)) (fresh : Nat → String × Nat)
    (hfresh : ∀ n, (fresh n).1 ∉ s.facts.map (fun f => f.id))
    (hinj : ∀ m n, (fresh m).1 = (fresh n).1 → m = n) :
    ((sumOracle = none ∨ sumOracle = some [] ∨ (getLongTermMemories s).length < 8) →
      ∀ f ∈ getLongTermMemories s,
        f ∈ (organizeAndSummarizeLongTerm s keepSel sumOracle fresh).1.facts) ∧
    (∀ l, sumOracle = some l → l ≠ [] → 8 ≤ (getLongTermMemories s).length →
      (organizeAndSummarizeLongTerm s keepSel sumOracle fresh).1.facts
        = (s.facts.map (promoteMany (orgSelection s keepSel))).filter
            (fun f => !(((getLongTermMemories s).map (fun m => m.id)).contains f.id))
          ++ (List.enumFrom 0 l).map (fun p => mkSummaryFact p.2 (fresh p.1)) ∧
      (∀ f ∈ getLongTermMemories s,
        ∀ g ∈ (organizeAndSummarizeLongTerm s keepSel sumOracle fresh).1.facts,
          g.id ≠ f.id)) := by
  have horg := organizeMemories_facts s keepSel
  constructor
  · intro hC f hf
    have hft : f.type = "long_term" := (mem_getLongTermMemories.mp hf).2
    have hfs : f ∈ s.facts := (mem_getLongTermMemories.mp hf).1
    have hmem1 : f ∈ (organizeMemories s keepSel).1.facts := by
      rw [horg]
      exact List.mem_map.mpr ⟨f, hfs, promoteMany_of_long _ f (by rw [hft]; decide)⟩
    by_cases h8 : 8 ≤ (getLongTermMemories s).length
    · rcases hC with hn | he | hlt
      · rw [hn, oasl_none s keepSel fresh h8]
        exact hmem1
      · rw [he, oasl_empty s keepSel fresh h8]
        exact hmem1
      · exact absurd h8 (not_le.mpr hlt)
    · rw [oasl_small s keepSel sumOracle fresh h8]
      exact hmem1
  · intro l hsome hl h8
    subst hsome
    have hids : ∀ n, (fresh n).1 ∉ (organizeMemories s keepSel).1.facts.map (fun f => f.id) := by
      intro n
      rw [org_ids]
      exact hfresh n
    have hadds := addSummaries_facts fresh hinj l (organizeMemories s keepSel).1 0
      (fun m _ => hids m)
    have heq : (organizeAndSummarizeLongTerm s keepSel (some l) fresh).1.facts
        = (s.facts.map (promoteMany (orgSelection s keepSel))).filter
            (fun f => !(((getLongTermMemories s).map (fun m => m.id)).contains f.id))
          ++ (List.enumFrom 0 l).map (fun p => mkSummaryFact p.2 (fresh p.1)) := by
      rw [oasl_main s keepSel l fresh h8 hl]
      show (((getLongTermMemories s).map (fun m => m.id)).foldl deleteMemoryFact
          (addSummaries (organizeMemories s keepSel).1 l fresh 0)).facts = _
      rw [deleteFold_facts, hadds, List.filter_append]
      have hsumkeep : ((List.enumFrom 0 l).map (fun p => mkSummaryFact p.2 (fresh p.1))).filter
          (fun f => !(((getLongTermMemories s).map (fun m => m.id)).contains f.id))
          = (List.enumFrom 0 l).map (fun p => mkSummaryFact p.2 (fresh p.1)) := by
        apply List.filter_eq_self.mpr
        intro g hg
        rcases List.mem_map.mp hg with ⟨p, _, hpg⟩
        have hgid : g.id = (fresh p.1).1 := by rw [← hpg]; rfl
        have hnotin : g.id ∉ (getLongTermMemories s).map (fun m => m.id) := by
          rw [hgid]
          intro hin
          rcases List.mem_map.mp hin with ⟨m, hm, hmid⟩
          exact hfresh p.1
            (List.mem_map.mpr ⟨m, (mem_getLongTermMemories.mp hm).1, hmid⟩)
        simpa using hnotin
      rw [hsumkeep, horg]
    refine ⟨heq, ?_⟩
    intro f hf g hg heqid
    rw [heq] at hg
    rcases List.mem_append.mp hg with hga | hgb
    · have hpred := (List.mem_filter.mp hga).2
      have hfid : f.id ∈ (getLongTermMemories s).map (fun m => m.id) :=
        List.mem_map.mpr ⟨f, hf, rfl⟩
      rw [heqid] at hpred
      have : f.id ∉ (getLongTermMemories s).map (fun m => m.id) := by
        simpa using hpred
      exact this hfid
    · rcases List.mem_map.mp hgb with ⟨p, _, hpg⟩
      have hgid : g.id = (fresh p.1).1 := by rw [← hpg]; rfl
      apply hfresh p.1
      rw [← hgid, heqid]
      exact List.mem_map.mpr ⟨f, (mem_getLongTermMemories.mp hf).1, rfl⟩

/- ## Claim theorems -/

/-- C3: `isDuplicateMemory` returns `true` iff some existing fact text is
identical to the candidate, or one text contains the other and the absolute
character-length difference is at most 3; in particular for a store holding
exactly one text `t` and a candidate `s` contained in `t`, the candidate is
flagged exactly when the length difference is at most 3, so a non-duplicate
candidate is never rejected. -/
theorem isDuplicate_characterization :
    (∀ (all : List String) (fact : String),
      isDuplicateMemory all fact = true ↔
        ∃ m ∈ all, m = fact ∨
          ((fact.toList <:+: m.toList ∨ m.toList <:+: fact.toList) ∧
            ((m.length : Int) - (fact.length : Int)).natAbs ≤ 3)) ∧
    (∀ t s : String, s.toList <:+: t.toList →
      isDuplicateMemory [t] s
        = decide (((t.length : Int) - (s.length : Int)).natAbs ≤ 3)) := by
  constructor
  · intro all fact
    unfold isDuplicateMemory
    rw [List.any_eq_true]
    constructor
    · rintro ⟨m, hm, hp⟩
      refine ⟨m, hm, ?_⟩
      by_cases h1 : m = fact
      · exact Or.inl h1
      · rw [if_neg h1] at hp
        by_cases h2 : (decide (fact.toList <:+: m.toList)
            || decide (m.toList <:+: fact.toList)) = true
        · rw [if_pos h2] at hp
          right
          constructor
          · rcases Bool.or_eq_true _ _ |>.mp h2 with h | h
            · exact Or.inl (of_decide_eq_true h)
            · exact Or.inr (of_decide_eq_true h)
          · exact of_decide_eq_true hp
        · rw [if_neg h2] at hp
          exact absurd hp (by simp)
    · rintro ⟨m, hm, hp⟩
      refine ⟨m, hm, ?_⟩
      by_cases h1 : m = fact
      · rw [if_pos h1]
      · rw [if_neg h1]
        rcases hp with h | ⟨hsub, hlen⟩
        · exact absurd h h1
        · rw [if_pos]
          · exact decide_eq_true hlen
          · rcases hsub with h | h
            · simp only [Bool.or_eq_true, decide_eq_true_eq]
              exact Or.inl h
            · simp only [Bool.or_eq_true, decide_eq_true_eq]
              exact Or.inr h
  · intro t s hsub
    by_cases hts : t = s
    · subst hts
      unfold isDuplicateMemory
      simp
    · unfold isDuplicateMemory
      simp only [List.any_cons, List.any_nil, Bool.or_false]
      rw [if_neg hts, if_pos]
      · simp only [Bool.or_eq_true, decide_eq_true_eq]
        exact Or.inl hsub

/-- C3 witness: `"abcd"` is contained in `"abcde"` with length difference 1,
and is flagged as a duplicate. -/
theorem isDuplicate_characterization_witness :
    ("abcd".toList <:+: "abcde".toList) ∧ isDuplicateMemory ["abcde"] "abcd" = true := by
  refine ⟨by decide, ?_⟩
  rw [isDuplicate_characterization.2 "abcde" "abcd" (by decide)]
  decide

set_option maxRecDepth 10000 in
/-- C4 counterexample: five short-term facts inserted as `a, b, c, d, e`
(timestamps 1..5).  With a failing oracle, exactly `⌊0.4 × 5⌋ = 2` facts are
promoted, but they are `d` and `e` — the two *newest* — while `a` and `b`,
the first two in insertion order, stay short-term, contradicting the
claimed insertion-order selection. -/
theorem organize_fallback_counterexample :
    (organizeMemories demoStore5 none).2.1 = 2 ∧
    ((organizeMemories demoStore5 none).1.facts.map (fun f => (f.id, f.type)))
      = [("a", "short_term"), ("b", "short_term"), ("c", "short_term"),
         ("d", "long_term"), ("e", "long_term")] := by
  decide

/-- C4 (amended): with at least 5 short-term facts and a failing oracle,
exactly `⌊0.4 × N⌋` facts are promoted, and they are the first `⌊0.4 × N⌋`
entries of the *newest-first* list `getShortTermMemories` returns (i.e. the
most recently created ones, the reverse of insertion order); every other
fact is left unchanged and in particular stays short-term. -/
theorem organize_fallback_promotes_newest (s : Store)
    (h5 : 5 ≤ (getShortTermMemories s).length) :
    (organizeMemories s none).2.1 = (getShortTermMemories s).length * 2 / 5 ∧
    (organizeMemories s none).1.facts
      = s.facts.map (promoteMany
          (((getShortTermMemories s).take ((getShortTermMemories s).length * 2 / 5)).map
            (fun f => f.id))) ∧
    (∀ f ∈ (getShortTermMemories s).take ((getShortTermMemories s).length * 2 / 5),
      { f with type := "long_term" } ∈ (organizeMemories s none).1.facts) ∧
    (∀ f ∈ s.facts,
      f.id ∉ (((getShortTermMemories s).take ((getShortTermMemories s).length * 2 / 5)).map
        (fun g => g.id)) →
      f ∈ (organizeMemories s none).1.facts) := by
  have hor : organizeMemories s none
      = ((((getShortTermMemories s).take ((getShortTermMemories s).length * 2 / 5)).map
            (fun f => f.id)).foldl promoteToLongTerm s,
         (getShortTermMemories s).length * 2 / 5,
         (getShortTermMemories s).length - (getShortTermMemories s).length * 2 / 5) := by
    unfold organizeMemories
    rw [if_neg (not_lt.mpr h5)]
  have hfacts : (organizeMemories s none).1.facts
      = s.facts.map (promoteMany
          (((getShortTermMemories s).take ((getShortTermMemories s).length * 2 / 5)).map
            (fun f => f.id))) := by
    rw [hor]
    exact promote_foldl _ s
  refine ⟨by rw [hor], hfacts, ?_, ?_⟩
  · intro f hf
    have hstm : f ∈ getShortTermMemories s := List.take_subset _ _ hf
    have hfs : f ∈ s.facts := (mem_getShortTermMemories.mp hstm).1
    have hft : f.type = "short_term" := (mem_getShortTermMemories.mp hstm).2
    have hsel : f.id ∈ ((getShortTermMemories s).take
        ((getShortTermMemories s).length * 2 / 5)).map (fun g => g.id) :=
      List.mem_map.mpr ⟨f, hf, rfl⟩
    have hflip : promoteMany
        (((getShortTermMemories s).take ((getShortTermMemories s).length * 2 / 5)).map
          (fun g => g.id)) f = { f with type := "long_term" } := by
      unfold promoteMany
      rw [if_pos]
      simp only [Bool.and_eq_true, beq_iff_eq]
      exact ⟨by simpa using hsel, hft⟩
    rw [hfacts]
    exact List.mem_map.mpr ⟨f, hfs, hflip⟩
  · intro f hfs hnot
    have hfix : promoteMany
        (((getShortTermMemories s).take ((getShortTermMemories s).length * 2 / 5)).map
          (fun g => g.id)) f = f := by
      unfold promoteMany
      rw [if_neg]
      simp only [Bool.and_eq_true, beq_iff_eq, not_and]
      intro hc
      exact absurd (by simpa using hc) hnot
    rw [hfacts]
    exact List.mem_map.mpr ⟨f, hfs, hfix⟩

set_option maxRecDepth 10000 in
/-- C4 witness: on the five-fact store the amended theorem applies and the
reported promoted count is `⌊0.4 × 5⌋ = 2`. -/
theorem organize_fallback_promotes_newest_witness :
    5 ≤ (getShortTermMemories demoStore5).length ∧
    (organizeMemories demoStore5 none).2.1 = 2 := by
  refine ⟨by decide, ?_⟩
  rw [(organize_fallback_promotes_newest demoStore5 (by decide)).1]
  decide

/-- C8: `organizeMemories` never deletes a fact.  Its result is exactly the
original fact list with the selected ids' lifecycle types flipped: same
length, unselected facts unchanged (so unselected short-term facts stay
short-term), non-short-term facts untouched, every original fact still
present with all non-type fields intact, and yet the reported `removed`
count is positive whenever the fallback runs on at least 5 facts. -/
theorem organize_no_deletion (s : Store) (oracle : Option (List Nat)) :
    (organizeMemories s oracle).1.facts
        = s.facts.map (promoteMany (orgSelection s oracle)) ∧
    (organizeMemories s oracle).1.facts.length = s.facts.length ∧
    (∀ f ∈ s.facts, f.id ∉ orgSelection s oracle →
      f ∈ (organizeMemories s oracle).1.facts) ∧
    (∀ f ∈ s.facts, f.type ≠ "short_term" → f ∈ (organizeMemories s oracle).1.facts) ∧
    (∀ f ∈ s.facts, ∃ g ∈ (organizeMemories s oracle).1.facts,
      g.id = f.id ∧ g.fact = f.fact ∧ g.category = f.category ∧
      g.importance = f.importance ∧ g.source = f.source ∧ g.timestamp = f.timestamp ∧
      (g.type = f.type ∨ (f.type = "short_term" ∧ g.type = "long_term"))) ∧
    (oracle = none → 5 ≤ (getShortTermMemories s).length →
      0 < (organizeMemories s oracle).2.2) := by
  have hfacts := organizeMemories_facts s oracle
  refine ⟨hfacts, ?_, ?_, ?_, ?_, ?_⟩
  · rw [hfacts, List.length_map]
  · intro f hfs hnot
    have hfix : promoteMany (orgSelection s oracle) f = f := by
      unfold promoteMany
      rw [if_neg]
      simp only [Bool.and_eq_true, beq_iff_eq, not_and]
      intro hc
      exact absurd (by simpa using hc) hnot
    rw [hfacts]
    exact List.mem_map.mpr ⟨f, hfs, hfix⟩
  · intro f hfs hnt
    rw [hfacts]
    exact List.mem_map.mpr ⟨f, hfs, promoteMany_of_long _ f hnt⟩
  · intro f hfs
    refine ⟨promoteMany (orgSelection s oracle) f, ?_, ?_⟩
    · rw [hfacts]
      exact List.mem_map.mpr ⟨f, hfs, rfl⟩
    · rcases promoteMany_type (orgSelection s oracle) f with
        ⟨ht, hid, hfc, hcat, himp, hsrc, hts⟩ | ⟨hshort, heq⟩
      · exact ⟨hid, hfc, hcat, himp, hsrc, hts, Or.inl ht⟩
      · rw [heq]
        exact ⟨rfl, rfl, rfl, rfl, rfl, rfl, Or.inr ⟨hshort, rfl⟩⟩
  · rintro rfl h5
    have hor : (organizeMemories s none).2.2
        = (getShortTermMemories s).length - (getShortTermMemories s).length * 2 / 5 := by
      unfold organizeMemories
      rw [if_neg (not_lt.mpr h5)]
    rw [hor]
    omega

set_option maxRecDepth 10000 in
/-- C8 witness: on the five-fact store with a failing oracle no fact is
deleted and the reported removed count is positive. -/
theorem organize_no_deletion_witness :
    (organizeMemories demoStore5 none).1.facts.length = demoStore5.facts.length ∧
    0 < (organizeMemories demoStore5 none).2.2 := by
  exact ⟨(organize_no_deletion demoStore5 none).2.1,
    (organize_no_deletion demoStore5 none).2.2.2.2.2 rfl (by decide)⟩

/-- C2 counterexample: a fact is added short-term, promoted to long-term,
and then a single `updateMemoryFact` whose partial update carries
`type: 'short_term'` flips it back — the lifecycle type does revert under
an unrestricted update, contradicting the claim over the listed operations. -/
theorem lifecycle_reverts_on_type_update :
    ((promoteToLongTerm
        (addMemoryFact ⟨[]⟩ ⟨"f1", "user likes cats", "userinfo", "short_term", 3/5,
          "conversation", 1⟩) "f1").facts.map (fun f => f.type) = ["long_term"]) ∧
    ((updateMemoryFact
        (promoteToLongTerm
          (addMemoryFact ⟨[]⟩ ⟨"f1", "user likes cats", "userinfo", "short_term", 3/5,
            "conversation", 1⟩) "f1")
        "f1" ⟨none, none, some "short_term", none, none, none⟩).facts.map (fun f => f.type)
      = ["short_term"]) := by
  decide

/-- C2 (amended): across any sequence of add / promote / update / organize /
consolidate / delete operations in which no partial update writes the
lifecycle-`type` field (as with every in-repo caller, which only rewrites
the fact text) and no add reuses the tracked id, a fact that is long-term
never becomes short-term again while it exists. -/
theorem lifecycle_monotone (s : Store) (ops : List MemOp) (i : String)
    (hupd : ∀ op ∈ ops, op.noTypeUpdate)
    (hadd : ∀ op ∈ ops, op.addsFreshFor i)
    (hlong : ∀ f ∈ s.facts, f.id = i → f.type = "long_term") :
    ∀ f ∈ (applyOps s ops).facts, f.id = i → f.type = "long_term" :=
  applyOps_preserves_long ops s i hupd hadd hlong

/-- C2 witness: running the concrete operation sequence on a store holding
one long-term fact keeps that fact long-term. -/
theorem lifecycle_monotone_witness :
    (⟨"lt1", "edited text", "shared_event", "long_term", 1, "system", 1⟩ : MemoryFact).type
      = "long_term" := by
  refine lifecycle_monotone demoLongStore demoOps "lt1" ?_ ?_ ?_ _ ?_ rfl
  · intro op hop
    fin_cases hop <;> trivial
  · intro op hop
    fin_cases hop <;> first | trivial | exact (by decide : ("f2" : String) ≠ "lt1")
  · decide
  · decide

/-- C7 counterexample: one valid user/assistant pairing, and an oracle
response with six truthy candidates — six facts are persisted in a single
call, so the "at most 5 per call" bound is not enforced by the code (the
limit is only requested in the prompt text). -/
theorem extract_cap_not_enforced :
    (extractMemoriesFromHistory ⟨[]⟩ demoMsgs (some demoCands) freshSupply).2 = 6 := by
  decide

/-- C7 (amended): `extractMemoriesFromHistory` writes every truthy oracle
candidate — however many there are — as a `long_term`/`system` fact with no
duplicate check against existing facts (the store grows by exactly the
candidate list, whatever it already contains); an empty history, an empty
pairing list, or a failed oracle call adds zero facts. -/
theorem extract_behaviour (s : Store) (messages : List ChatMsg)
    (mems : List Candidate) (fresh : Nat → String × Nat)
    (hfresh : ∀ n, (fresh n).1 ∉ s.facts.map (fun f => f.id))
    (hinj : ∀ m n, (fresh m).1 = (fresh n).1 → m = n) :
    (extractMemoriesFromHistory s [] (some mems) fresh = (s, 0)) ∧
    (collectPairs messages = [] →
      extractMemoriesFromHistory s messages (some mems) fresh = (s, 0)) ∧
    (extractMemoriesFromHistory s messages none fresh = (s, 0)) ∧
    (messages ≠ [] → collectPairs messages ≠ [] →
      (extractMemoriesFromHistory s messages (some mems) fresh).1.facts
          = s.facts ++ extractedFacts mems fresh 0 ∧
      (extractMemoriesFromHistory s messages (some mems) fresh).2
          = (mems.filter candValid).length) ∧
    (∀ f ∈ extractedFacts mems fresh 0, f.type = "long_term" ∧ f.source = "system") := by
  refine ⟨?_, ?_, ?_, ?_, extractedFacts_fields fresh mems 0⟩
  · rfl
  · intro hp
    unfold extractMemoriesFromHistory
    rw [hp]
    by_cases hm : messages.length = 0
    · rw [if_pos hm]
    · rw [if_neg hm]
      simp
  · unfold extractMemoriesFromHistory
    by_cases hm : messages.length = 0
    · rw [if_pos hm]
    · rw [if_neg hm]
      by_cases hp : (collectPairs messages).length = 0
      · rw [if_pos hp]
      · rw [if_neg hp]
  · intro hne hp
    have hprop := addCandidates_props fresh hinj mems s 0 (fun m _ => hfresh m)
    have hrun : extractMemoriesFromHistory s messages (some mems) fresh
        = addCandidates s mems fresh 0 := by
      unfold extractMemoriesFromHistory
      rw [if_neg (by simpa using hne), if_neg (by simpa using hp)]
    rw [hrun]
    exact ⟨hprop.1, by rw [hprop.2]; omega⟩

/-- C7 witness: with one pairing and one truthy candidate, exactly one fact
is added. -/
theorem extract_behaviour_witness :
    (extractMemoriesFromHistory ⟨[]⟩ demoMsgs (some demoCand1) freshSupply).2
      = (demoCand1.filter candValid).length := by
  exact ((extract_behaviour ⟨[]⟩ demoMsgs demoCand1 freshSupply
    (fun n => by simp) freshSupply_inj).2.2.2.1 (by decide) (by decide)).2

/-- C1 witness: with no long-term facts the snapshot is below the
consolidation threshold and a long-term fact placed in the store survives
`organizeAndSummarizeLongTerm` untouched. -/
theorem consolidation_all_or_nothing_witness :
    demoLongFact ∈ getLongTermMemories demoLongStore ∧
    demoLongFact ∈ (organizeAndSummarizeLongTerm demoLongStore none none freshSupply).1.facts := by
  refine ⟨by decide, ?_⟩
  refine (consolidation_all_or_nothing demoLongStore none none freshSupply ?_
    freshSupply_inj).1 (Or.inl rfl) demoLongFact (by decide)
  intro n
  apply freshSupply_notin
  intro id hid
  simp only [demoLongStore, demoLongFact, Store.mk.injEq] at hid
  simp at hid
  rw [hid]
  constructor
  · decide
  · decide

/-- C9: the embedding is a 256-dimensional vector (`Fin 256 → ℝ`); whenever
the bigram feature vector is not entirely zero its Euclidean norm is 1, and
when the feature vector is entirely zero (e.g. the empty string) the result
is the all-zero vector, with no division by zero. -/
theorem embedding_unit_norm (text : List Char) :
    (magSq text ≠ 0 →
      Real.sqrt (∑ j : Fin 256,
        computeTextEmbedding text j * computeTextEmbedding text j) = 1) ∧
    (magSq text = 0 → computeTextEmbedding text = fun _ => 0) := by
  constructor
  · intro h
    rw [sum_emb_sq text h, Real.sqrt_one]
  · exact computeTextEmbedding_of_zero text

set_option maxRecDepth 40000 in
/-- C9 witness: the text `"ab"` has a nonzero feature vector and its
embedding has unit norm; the empty text embeds to the zero vector. -/
theorem embedding_unit_norm_witness :
    (magSq ("ab".toList) ≠ 0 ∧
      Real.sqrt (∑ j : Fin 256,
        computeTextEmbedding ("ab".toList) j * computeTextEmbedding ("ab".toList) j) = 1) ∧
    (magSq ([] : List Char) = 0 ∧ computeTextEmbedding [] = fun _ => 0) :=
  ⟨⟨by decide, (embedding_unit_norm ("ab".toList)).1 (by decide)⟩,
   ⟨by decide, (embedding_unit_norm []).2 (by decide)⟩⟩

/-- C5: if `findSimilarSticker` returns a match, that artifact has the
requested category and its similarity to the query embedding is not
strictly below the threshold; when no same-category artifact reaches the
threshold it returns no match. -/
theorem findSimilar_sound (store : List Sticker) (ty : String) (detail : List Char)
    (threshold : ℝ) :
    (∀ m, findSimilarSticker store ty detail threshold = some m →
      m.type = ty ∧ threshold ≤ cosineSimilarity (computeTextEmbedding detail) m.embedding) ∧
    ((∀ st ∈ store, st.type = ty →
        cosineSimilarity (computeTextEmbedding detail) st.embedding < threshold) →
      findSimilarSticker store ty detail threshold = none) := by
  constructor
  · intro m hm
    unfold findSimilarSticker at hm
    rcases simFold_some _ _ _ _ m hm with h | ⟨hmem, hc⟩
    · exact absurd h (by simp)
    · have hf := List.mem_filter.mp hmem
      exact ⟨by simpa using hf.2, hc⟩
  · intro hall
    have hskip : simFold (computeTextEmbedding detail) threshold (none, 0)
        (store.filter (fun st => st.type == ty)) = (none, 0) := by
      apply simFold_skip
      intro st hst
      have hf := List.mem_filter.mp hst
      exact not_le.mpr (hall st hf.1 (by simpa using hf.2))
    show (simFold (computeTextEmbedding detail) threshold (none, 0)
      (store.filter (fun st => st.type == ty))).1 = none
    rw [hskip]

/-- C5 witness: on the empty cache the lookup returns no match. -/
theorem findSimilar_sound_witness :
    findSimilarSticker [] "hikari_emotion" ("happy".toList) (7/10) = none :=
  (findSimilar_sound [] "hikari_emotion" ("happy".toList) (7/10)).2
    (by intro st hst _; simp at hst)

/-- C10: a descriptor shorter than 2 characters yields the all-zero query
embedding, every cosine similarity against it is 0, the running best stays
at its initial 0, and the lookup returns no match and increments no usage
count, for every cache state, category and threshold. -/
theorem findSimilar_short_descriptor (store : List Sticker) (ty : String)
    (detail : List Char) (threshold : ℝ) (h : detail.length < 2) :
    findSimilarAndTouch store ty detail threshold = (none, store) := by
  have hemb : computeTextEmbedding detail = fun _ => 0 :=
    computeTextEmbedding_of_zero detail (magSq_of_short detail h)
  have hfind : findSimilarSticker store ty detail threshold = none := by
    show (simFold (computeTextEmbedding detail) threshold (none, 0)
      (store.filter (fun st => st.type == ty))).1 = none
    rw [hemb, simFold_zero _ _ _
      (fun st _ => cosineSimilarity_zero_left _ _ (fun i => rfl))]
  unfold findSimilarAndTouch
  rw [hfind]

/-- C10 witness: a one-character descriptor misses a populated cache and
leaves it unchanged. -/
theorem findSimilar_short_descriptor_witness :
    findSimilarAndTouch [demoSticker] "hikari_emotion" ['a'] (1/2)
      = (none, [demoSticker]) :=
  findSimilar_short_descriptor [demoSticker] "hikari_emotion" ['a'] (1/2) (by decide)

set_option maxRecDepth 200000 in
theorem c6_cos_lt :
    cosineSimilarity (computeTextEmbedding ("happy".toList))
        (computeTextEmbedding ("red heart sticker".toList ++ [' '] ++ "happy".toList))
      < 7 / 10 := by
  have h1 : magSq ("happy".toList) = 4 := by decide
  have h2 : magSq ("red heart sticker".toList ++ [' '] ++ "happy".toList) = 24 := by decide
  have hd : dotNat ("happy".toList)
      ("red heart sticker".toList ++ [' '] ++ "happy".toList) = 4 := by decide
  rw [cosineSimilarity_emb _ _ (by rw [h1]; norm_num) (by rw [h2]; norm_num), h1, h2, hd]
  push_cast
  have hs4 : Real.sqrt (4 : ℝ) = 2 := by
    rw [show (4 : ℝ) = 2 ^ 2 by norm_num, Real.sqrt_sq (by norm_num : (0 : ℝ) ≤ 2)]
  rw [hs4]
  have h24 : (4 : ℝ) < Real.sqrt 24 := by
    rw [show (4 : ℝ) = Real.sqrt 16 by
      rw [show (16 : ℝ) = 4 ^ 2 by norm_num, Real.sqrt_sq (by norm_num : (0 : ℝ) ≤ 4)]]
    exact Real.sqrt_lt_sqrt (by norm_num) (by norm_num)
  rw [div_lt_iff₀ (by nlinarith : (0 : ℝ) < 2 * Real.sqrt 24)]
  nlinarith

theorem findSimilar_single (st : Sticker) (ty : String) (detail : List Char) (th : ℝ)
    (h : ¬ th ≤ cosineSimilarity (computeTextEmbedding detail) st.embedding) :
    findSimilarSticker [st] ty detail th = none := by
  unfold findSimilarSticker
  have hskip : simFold (computeTextEmbedding detail) th (none, 0)
      ([st].filter (fun s2 => s2.type == ty)) = (none, 0) := by
    apply simFold_skip
    intro s2 hs2
    have hmem : s2 = st := by simpa using (List.mem_filter.mp hs2).1
    rw [hmem]
    exact h
  show (simFold (computeTextEmbedding detail) th (none, 0)
    ([st].filter (fun s2 => s2.type == ty))).1 = none
  rw [hskip]

theorem c6_no_match :
    findSimilarSticker
      (saveSticker [] ("red heart sticker".toList) "hikari_emotion" ("happy".toList)
        "img" "s1" 0).1
      "hikari_emotion" ("happy".toList) (7 / 10) = none := by
  show findSimilarSticker
    [⟨"s1", "red heart sticker".toList, "hikari_emotion", "happy".toList, "img",
      computeTextEmbedding ("red heart sticker".toList ++ [' '] ++ "happy".toList), 0, 1⟩]
    "hikari_emotion" ("happy".toList) (7 / 10) = none
  exact findSimilar_single _ _ _ _ (not_le.mpr c6_cos_lt)

/-- C6 counterexample: after `saveSticker("red heart sticker",
"hikari_emotion", "happy", payload)`, the lookup
`findSimilarSticker("hikari_emotion", "happy", 0.7)` does *not* return the
saved artifact — it returns no match at all, because the save embeds
`promptText + ' ' + descriptor` while the lookup embeds the descriptor
alone, so the "self-match" similarity is 4/√96 ≈ 0.41, not 1.0. -/
theorem save_then_find_no_selfmatch :
    (findSimilarAndTouch
      (saveSticker [] ("red heart sticker".toList) "hikari_emotion" ("happy".toList)
        "img" "s1" 0).1
      "hikari_emotion" ("happy".toList) (7 / 10)).1 = none := by
  unfold findSimilarAndTouch
  rw [c6_no_match]

/-- C6 (amended): in the save-then-lookup scenario the similarity between
the stored embedding (computed over `promptText + ' ' + descriptor`) and
the query embedding (descriptor alone) is strictly below the 0.7
threshold, so the lookup returns no match, the cache is unchanged, and the
saved artifact's `usageCount` stays 1. -/
theorem save_then_find_scenario :
    cosineSimilarity (computeTextEmbedding ("happy".toList))
        (computeTextEmbedding ("red heart sticker".toList ++ [' '] ++ "happy".toList))
      < 7 / 10 ∧
    findSimilarAndTouch
        (saveSticker [] ("red heart sticker".toList) "hikari_emotion" ("happy".toList)
          "img" "s1" 0).1
        "hikari_emotion" ("happy".toList) (7 / 10)
      = (none,
        (saveSticker [] ("red heart sticker".toList) "hikari_emotion" ("happy".toList)
          "img" "s1" 0).1) ∧
    (saveSticker [] ("red heart sticker".toList) "hikari_emotion" ("happy".toList)
      "img" "s1" 0).2.usageCount = 1 := by
  refine ⟨c6_cos_lt, ?_, rfl⟩
  unfold findSimilarAndTouch
  rw [c6_no_match]
